import Mathlib

/-!
Shallow embedding of the encounter-resolution core of the quick-time-attack
game: difficulty curves (systems/difficulty.js), the QTE base class
(qtes/qte.js) and the QTE scene callback dispatch, the player damage model
(player.js), wall-collision resolution (collision.js), the bullet pool
(bullet.js), the Letter enemy state machine, the per-type canTriggerQTE
gates, the depth-scaled HeartQTE, and the gameplay orchestrator's per-frame
arbitration slice (frame counter, hitstop, bullet-damage recording and the
3-frame retroactive-undo window).

Real numbers of the JavaScript source are modelled as rationals; frame
counters as integers.  Geometry that only feeds boolean overlap tests in
the orchestrator is abstracted into per-frame oracle inputs, everything
else is translated statement by statement from the source.
-/

-- ═════════════════════════ Difficulty curves (systems/difficulty.js) ═══

/-- Math.floor((levelDepth - 1) / 5) of the source: floor division. -/
def depthStep (levelDepth : ℤ) : ℤ := Int.fdiv (levelDepth - 1) 5

/-- Level time limit: max(30, 60 - floor((d-1)/5)*5). -/
def getLevelTimeLimit (levelDepth : ℤ) : ℤ :=
  max 30 (60 - depthStep levelDepth * 5)

/-- QTE time limit: max(3, 5 - floor((d-1)/5)). -/
def getQTETimeLimit (levelDepth : ℤ) : ℤ :=
  max 3 (5 - depthStep levelDepth)

/-- Generator tap target: min(5 + floor((d-1)/5)*2, 15). -/
def getGeneratorTapTarget (levelDepth : ℤ) : ℤ :=
  min (5 + depthStep levelDepth * 2) 15

/-- _lerp(a, b, levelDepth, startLevel, endLevel) of the source:
linear interpolation with the parameter clamped to [0, 1]. -/
def lerpDepth (a b : ℚ) (levelDepth startLevel endLevel : ℤ) : ℚ :=
  let t : ℚ :=
    min (max (((levelDepth : ℚ) - startLevel) / ((endLevel : ℚ) - startLevel)) 0) 1
  a + (b - a) * t

/-- Number of hearts in the Heart QTE: min(3 + floor((d-1)/5), 5). -/
def getHeartCount (levelDepth : ℤ) : ℤ :=
  min (3 + depthStep levelDepth) 5

/-- Heart scroll speed: 120 px/s at depth 1 linearly up to 280 px/s at depth 20. -/
def getHeartScrollSpeed (levelDepth : ℤ) : ℚ :=
  lerpDepth 120 280 levelDepth 1 20

-- ═════════════════════════ QTE base class (qtes/qte.js) ════════════════

inductive QTEResult where
  | success
  | fail
deriving DecidableEq, Repr

/-- State of the QTE base class: countdown timer plus one-shot result. -/
structure QTE where
  timeLimit : ℚ
  elapsed : ℚ
  completed : Bool
  result : Option QTEResult
deriving DecidableEq, Repr

/-- Fresh QTE as built by the constructor. -/
def QTE.mk0 (timeLimit : ℚ) : QTE :=
  { timeLimit := timeLimit, elapsed := 0, completed := false, result := none }

/-- QTE.succeed(): marks success unless already completed. -/
def QTE.succeed (q : QTE) : QTE :=
  if q.completed then q
  else { q with completed := true, result := some QTEResult.success }

/-- QTE.fail(): marks failure unless already completed. -/
def QTE.fail (q : QTE) : QTE :=
  if q.completed then q
  else { q with completed := true, result := some QTEResult.fail }

/-- QTE.update(dt): ticks elapsed time and auto-fails at the time limit. -/
def QTE.updateQ (q : QTE) (dt : ℚ) : QTE :=
  if q.completed then q
  else
    let q := { q with elapsed := q.elapsed + dt }
    if q.timeLimit ≤ q.elapsed then q.fail else q

-- ═══════════ QTE scene callback dispatch (QTEScene.update slice) ═══════

/-- QTEScene slice: splash phase, per-frame QTE update, and one-shot
callback dispatch followed by popScene.  successFires / failFires count
callback invocations; popped records that the scene left the stack. -/
structure QTEScene where
  qte : QTE
  splashDone : Bool
  splashTimer : ℚ
  popped : Bool
  successFires : ℕ
  failFires : ℕ
deriving DecidableEq, Repr

def QTEScene.mk0 (q : QTE) : QTEScene :=
  { qte := q, splashDone := false, splashTimer := 0, popped := false,
    successFires := 0, failFires := 0 }

/-- One QTEScene.update(dt) call.  After popScene the scene no longer
receives updates, modelled by the popped guard. -/
def QTEScene.step (s : QTEScene) (dt : ℚ) : QTEScene :=
  if s.popped then s
  else if !s.splashDone then
    let t := s.splashTimer + dt
    if 3/2 ≤ t then { s with splashTimer := t, splashDone := true }
    else { s with splashTimer := t }
  else
    let q := s.qte.updateQ dt
    if q.completed then
      match q.result with
      | some QTEResult.success =>
          { s with qte := q, successFires := s.successFires + 1, popped := true }
      | _ =>
          { s with qte := q, failFires := s.failFires + 1, popped := true }
    else { s with qte := q }

def QTEScene.run (s : QTEScene) (dts : List ℚ) : QTEScene :=
  dts.foldl QTEScene.step s

-- ═════════════════════════ Player damage model (player.js) ═════════════

/-- Player fields that feed the encounter arbitration.  Movement and
rendering state is spatial only and does not affect these fields. -/
structure Player where
  lives : ℤ
  invulnerable : Bool
  invulnTimer : ℚ
  dead : Bool
  dashing : Bool
  dashTimer : ℚ
  dashCooldown : ℚ
  predashInvuln : Bool
deriving DecidableEq, Repr

/-- Player as built by the constructor (3 starting lives). -/
def Player.mk0 : Player :=
  { lives := 3, invulnerable := false, invulnTimer := 0, dead := false,
    dashing := false, dashTimer := 0, dashCooldown := 0, predashInvuln := false }

/-- Player.damage(): refuses while invulnerable or dead; otherwise takes a
life, killing at zero or granting 1s of invulnerability.  Returns the
updated player and the boolean the source returns. -/
def Player.damage (p : Player) : Player × Bool :=
  if p.invulnerable || p.dead then (p, false)
  else
    let lives := p.lives - 1
    if lives ≤ 0 then ({ p with lives := 0, dead := true }, true)
    else ({ p with lives := lives, invulnerable := true, invulnTimer := 1 }, true)

/-- Player.undoDamage(): unconditional reversal used by QTE priority. -/
def Player.undoDamage (p : Player) : Player :=
  { p with lives := p.lives + 1, invulnerable := false, invulnTimer := 0,
           dead := false }

/-- Player.update(dt) restricted to the life/invulnerability/dash fields:
invulnerability tick, dash cooldown tick, dash initiation and dash end.
dashPressed stands for the dash input edge. -/
def Player.updateP (p : Player) (dt : ℚ) (dashPressed : Bool) : Player :=
  if p.dead then p
  else
    let p1 :=
      if p.invulnerable && !p.dashing then
        let t := p.invulnTimer - dt
        if t ≤ 0 then { p with invulnerable := false, invulnTimer := 0 }
        else { p with invulnTimer := t }
      else p
    let p2 :=
      if !p1.dashing && 0 < p1.dashCooldown then
        { p1 with dashCooldown := p1.dashCooldown - dt }
      else p1
    let p3 :=
      if dashPressed && p2.dashCooldown ≤ 0 && !p2.dashing then
        { p2 with dashing := true, dashTimer := 12/100, dashCooldown := 1/2,
                  predashInvuln := p2.invulnerable, invulnerable := true }
      else p2
    if p3.dashing then
      let t := p3.dashTimer - dt
      if t ≤ 0 then
        let p4 := { p3 with dashing := false, dashTimer := t }
        if !p4.predashInvuln then
          { p4 with invulnerable := false, invulnTimer := 0 }
        else p4
      else { p3 with dashTimer := t }
    else p3

-- ═════════════════════════ Collision (collision.js) ════════════════════

/-- Wall rectangle {x, y, w, h}. -/
structure Wall where
  x : ℚ
  y : ℚ
  w : ℚ
  h : ℚ
deriving DecidableEq, Repr

/-- Entity as seen by _resolveAABB: centre position plus size. -/
structure Ent where
  x : ℚ
  y : ℚ
  width : ℚ
  height : ℚ
deriving DecidableEq, Repr

/-- checkAABB of the source: strict four-inequality overlap test. -/
def checkAABB (ax ay aw ah bx bY bw bh : ℚ) : Bool :=
  ax < bx + bw && bx < ax + aw && ay < bY + bh && bY < ay + ah

/-- Whether the entity's centred AABB overlaps a wall — the negation of the
continue-condition inside _resolveAABB. -/
def entOverlapsWall (e : Ent) (wall : Wall) : Bool :=
  let ex := e.x - e.width / 2
  let ey := e.y - e.height / 2
  !(wall.x + wall.w ≤ ex || ex + e.width ≤ wall.x ||
    wall.y + wall.h ≤ ey || ey + e.height ≤ wall.y)

/-- Math.abs. -/
def mathAbs (q : ℚ) : ℚ := if q < 0 then -q else q

/-- One iteration of the wall loop in _resolveAABB: minimum-penetration
single-axis push out of one wall. -/
def resolveAABBWall (e : Ent) (wall : Wall) : Ent :=
  let ex := e.x - e.width / 2
  let ey := e.y - e.height / 2
  if wall.x + wall.w ≤ ex || ex + e.width ≤ wall.x ||
     wall.y + wall.h ≤ ey || ey + e.height ≤ wall.y then e
  else
    let overlapRight := (ex + e.width) - wall.x
    let overlapLeft := (wall.x + wall.w) - ex
    let overlapDown := (ey + e.height) - wall.y
    let overlapUp := (wall.y + wall.h) - ey
    let minXOverlap := if overlapRight < overlapLeft then -overlapRight else overlapLeft
    let minYOverlap := if overlapDown < overlapUp then -overlapDown else overlapUp
    if mathAbs minXOverlap < mathAbs minYOverlap then { e with x := e.x + minXOverlap }
    else { e with y := e.y + minYOverlap }

/-- _resolveAABB: fold the per-wall push over the wall list (AABB mode of
resolveWallCollision). -/
def resolveAABB (e : Ent) (walls : List Wall) : Ent :=
  walls.foldl resolveAABBWall e

/-- Overlap part of checkCircleVsAABB: clamp the centre to the rect; if the
centre is outside, overlap iff distSq < r²; a centre inside the rect always
overlaps.  (The push vector needs a square root and is only used by circle
mode movement, not by any boolean decision modelled here.) -/
def circleOverlapsAABB (cx cy r : ℚ) (wall : Wall) : Bool :=
  let closestX := max wall.x (min cx (wall.x + wall.w))
  let closestY := max wall.y (min cy (wall.y + wall.h))
  let dx := cx - closestX
  let dy := cy - closestY
  let distSq := dx * dx + dy * dy
  if 0 < distSq then decide (distSq < r * r) else true

-- ═════════════════════════ Bullet pool (bullet.js) ═════════════════════

/-- Bullet state.  FADE_DURATION = 0.3 s, SOFT_CAP = 200. -/
structure Bullet where
  x : ℚ
  y : ℚ
  vx : ℚ
  vy : ℚ
  radius : ℚ
  lifetime : ℚ
  maxLifetime : ℚ
  alpha : ℚ
  fadeTimer : ℚ
  active : Bool
  fading : Bool
deriving DecidableEq, Repr

/-- Bullet.update(dt): move, age (deactivate at maxLifetime), then advance
the soft-cap fade (deactivate when alpha reaches 0). -/
def Bullet.updateB (b : Bullet) (dt : ℚ) : Bullet :=
  if !b.active then b
  else
    let b := { b with x := b.x + b.vx * dt, y := b.y + b.vy * dt,
                      lifetime := b.lifetime + dt }
    if b.maxLifetime ≤ b.lifetime then { b with active := false }
    else if b.fading then
      let ft := b.fadeTimer + dt
      let a := max 0 (1 - ft / (3/10))
      let b := { b with fadeTimer := ft, alpha := a }
      if a ≤ 0 then { b with active := false } else b
    else b

/-- Bullet.checkWalls reduced to its deactivation decision: whether the
bullet circle overlaps any wall. -/
def Bullet.hitsWall (b : Bullet) (walls : List Wall) : Bool :=
  walls.any (fun wall => circleOverlapsAABB b.x b.y b.radius wall)

/-- Bullet.startFade(): begin the soft-cap fade-out (no-op if fading). -/
def Bullet.startFade (b : Bullet) : Bullet :=
  if b.fading then b else { b with fading := true, fadeTimer := 0 }

/-- Per-bullet part of BulletPool.update: update, then wall check
(deactivating on hit).  Inactive bullets are skipped. -/
def bulletPhase1 (dt : ℚ) (walls : List Wall) (b : Bullet) : Bullet :=
  if !b.active then b
  else
    let b := b.updateB dt
    if !b.active then b
    else if b.hitsWall walls then { b with active := false }
    else b

/-- Sort order used by the soft cap: oldest (largest lifetime) first —
the JS comparator (a, b) => b.lifetime - a.lifetime. -/
def oldestFirst (a b : ℕ × Bullet) : Prop :=
  b.2.lifetime ≤ a.2.lifetime

instance : DecidableRel oldestFirst :=
  fun a b => inferInstanceAs (Decidable (b.2.lifetime ≤ a.2.lifetime))

instance : IsTotal (ℕ × Bullet) oldestFirst :=
  ⟨fun a b => le_total b.2.lifetime a.2.lifetime⟩

instance : IsTrans (ℕ × Bullet) oldestFirst :=
  ⟨fun _ _ _ hab hbc => le_trans hbc hab⟩

/-- BulletPool.update(dt, walls): update every bullet, then if more than
SOFT_CAP = 200 survive, mark the oldest excess bullets fading. -/
def bulletPoolUpdate (pool : List Bullet) (dt : ℚ) (walls : List Wall) :
    List Bullet :=
  let pool := pool.map (bulletPhase1 dt walls)
  let survivors := pool.enum.filter (fun p => p.2.active)
  if 200 < survivors.length then
    let sorted := List.insertionSort oldestFirst survivors
    let excess := survivors.length - 200
    let fadeIds := (sorted.take excess).map Prod.fst
    pool.enum.map (fun p => if p.1 ∈ fadeIds then p.2.startFade else p.2)
  else pool

/-- Test fixture: a just-spawned live bullet. -/
def c6Base : Bullet :=
  { x := 0, y := 0, vx := 0, vy := 0, radius := 5, lifetime := 0,
    maxLifetime := 5, alpha := 1, fadeTimer := 0, active := true, fading := false }

/-- Test fixture: 201 live bullets, the last strictly oldest. -/
def c6Pool : List Bullet :=
  List.replicate 200 c6Base ++ [{ c6Base with lifetime := 1 }]

-- ═════════════════ Letter enemy single-flight model (letter.js) ════════

/-- Letter FSM states. firing is transient: onStateEnter('firing') spawns
the bullet and immediately transitions to waiting. -/
inductive LSt where
  | aiming
  | firing
  | waiting
  | teleporting
deriving DecidableEq, Repr

/-- Letter fields driving the spawn/wait cycle.  Spatial fields (position,
aim direction) do not influence which transitions fire and are omitted. -/
structure LetterS where
  st : LSt
  stateTimer : ℚ
  activeBullet : Option ℕ
  aimDuration : ℚ
deriving DecidableEq, Repr

/-- Letter plus the pool bullets it spawned, by id.  Each spawn appends a
fresh id (a fresh logical projectile; pool-slot reuse recycles a slot only
after the projectile in it died, which this id-based view keeps separate). -/
structure LetterSim where
  letter : LetterS
  bullets : List Bool
deriving DecidableEq, Repr

/-- One frame of the environment: bullets.update may deactivate bullets
(wall hit or lifetime) before the enemy updates, or an applyKnockback
interrupt arrives (QTE blast), which resets the Letter to aiming and
deactivates its in-flight bullet. -/
inductive LInput where
  | upd (dt : ℚ) (deact : List ℕ)
  | knock
deriving DecidableEq, Repr

/-- External deactivations (bullet lifetime expiry / wall hits). -/
def deactivateIds (bs : List Bool) (ids : List ℕ) : List Bool :=
  bs.enum.map (fun p => if p.1 ∈ ids then false else p.2)

def LetterSim.init (aimDur : ℚ) : LetterSim :=
  { letter := { st := LSt.aiming, stateTimer := 0, activeBullet := none,
                aimDuration := aimDur },
    bullets := [] }

/-- One orchestrator frame as seen by the Letter: bullets update first,
then Letter.update(dt) (or the knockback interrupt). -/
def LetterSim.step (s : LetterSim) (inp : LInput) : LetterSim :=
  match inp with
  | LInput.knock =>
      let bs :=
        match s.letter.activeBullet with
        | some b => s.bullets.set b false
        | none => s.bullets
      { letter := { st := LSt.aiming, stateTimer := 0, activeBullet := none,
                    aimDuration := s.letter.aimDuration },
        bullets := bs }
  | LInput.upd dt deact =>
      let bs := deactivateIds s.bullets deact
      let t := s.letter.stateTimer + dt
      match s.letter.st with
      | LSt.aiming =>
          if s.letter.aimDuration ≤ t then
            { letter := { st := LSt.waiting, stateTimer := 0,
                          activeBullet := some bs.length,
                          aimDuration := s.letter.aimDuration },
              bullets := bs ++ [true] }
          else
            { letter := { s.letter with stateTimer := t }, bullets := bs }
      | LSt.firing =>
          { letter := { s.letter with stateTimer := t }, bullets := bs }
      | LSt.waiting =>
          match s.letter.activeBullet with
          | some b =>
              if bs.getD b true = false then
                { letter := { st := LSt.teleporting, stateTimer := 0,
                              activeBullet := none,
                              aimDuration := s.letter.aimDuration },
                  bullets := bs }
              else
                { letter := { s.letter with stateTimer := t }, bullets := bs }
          | none =>
              { letter := { s.letter with stateTimer := t }, bullets := bs }
      | LSt.teleporting =>
          if 3/10 ≤ t then
            { letter := { s.letter with st := LSt.aiming, stateTimer := 0 },
              bullets := bs }
          else
            { letter := { s.letter with stateTimer := t }, bullets := bs }

def LetterSim.run (s : LetterSim) (L : List LInput) : LetterSim :=
  L.foldl LetterSim.step s

/-- Single-flight invariant of the Letter simulation: every active pool
bullet is the letter's tracked bullet, the tracked reference only exists
in the waiting state, and it is in bounds. -/
def LInv (s : LetterSim) : Prop :=
  (∀ j, ∀ hj : j < s.bullets.length, s.bullets.get ⟨j, hj⟩ = true →
     s.letter.activeBullet = some j) ∧
  (s.letter.st ≠ LSt.waiting → s.letter.activeBullet = none) ∧
  (∀ b, s.letter.activeBullet = some b → b < s.bullets.length)

-- ════════════ canTriggerQTE gates (enemy.js and the 8 subclasses) ══════

inductive EType where
  | bat
  | gopher
  | spinningTop
  | letter
  | cowboy
  | controller
  | heart
  | clock
deriving DecidableEq, Repr

/-- Enemy fields read by the canTriggerQTE getters and the orchestrator's
QTE collision check. -/
structure EnemyRec where
  etype : EType
  x : ℚ
  y : ℚ
  width : ℚ
  height : ℚ
  active : Bool
  falling : Bool
  justLanded : Bool
  state : String
  burrowGrace : ℚ
deriving DecidableEq, Repr

/-- Enemy.canTriggerQTE (base class). -/
def enemyBaseCanTriggerQTE (e : EnemyRec) : Bool :=
  e.active && !(e.state == "stunned") && !e.falling

/-- Bat override: excludes the lunge, nothing else. -/
def batCanTriggerQTE (e : EnemyRec) : Bool :=
  e.active && !(e.state == "lunge") && !(e.state == "stunned")

/-- Gopher override: stunned excluded; underground only during burrowGrace. -/
def gopherCanTriggerQTE (e : EnemyRec) : Bool :=
  if !e.active || e.state == "stunned" then false
  else if e.state == "underground" then decide (0 < e.burrowGrace)
  else true

/-- SpinningTop override: also excludes falling and justLanded. -/
def spinningTopCanTriggerQTE (e : EnemyRec) : Bool :=
  e.active && !(e.state == "stunned") && !e.falling && !e.justLanded

/-- Letter override. -/
def letterCanTriggerQTE (e : EnemyRec) : Bool :=
  e.active && !(e.state == "stunned")

/-- Cowboy override. -/
def cowboyCanTriggerQTE (e : EnemyRec) : Bool :=
  e.active && !(e.state == "stunned")

/-- Controller override. -/
def controllerCanTriggerQTE (e : EnemyRec) : Bool :=
  e.active && !(e.state == "stunned")

/-- Heart override: also excludes falling and justLanded. -/
def heartCanTriggerQTE (e : EnemyRec) : Bool :=
  e.active && !(e.state == "stunned") && !e.falling && !e.justLanded

/-- Clock override. -/
def clockCanTriggerQTE (e : EnemyRec) : Bool :=
  e.active && !(e.state == "stunned")

/-- Dynamic dispatch of the getter by enemy type. -/
def canTriggerQTE (e : EnemyRec) : Bool :=
  match e.etype with
  | EType.bat => batCanTriggerQTE e
  | EType.gopher => gopherCanTriggerQTE e
  | EType.spinningTop => spinningTopCanTriggerQTE e
  | EType.letter => letterCanTriggerQTE e
  | EType.cowboy => cowboyCanTriggerQTE e
  | EType.controller => controllerCanTriggerQTE e
  | EType.heart => heartCanTriggerQTE e
  | EType.clock => clockCanTriggerQTE e

/-- GameplayScene._checkQTECollision: first enemy (in list order) that is
active, passes canTriggerQTE, and AABB-overlaps the player. -/
def checkQTECollision (px py pw ph : ℚ) (es : List EnemyRec) : Option EnemyRec :=
  es.find? (fun e =>
    e.active && canTriggerQTE e &&
    checkAABB (px - pw / 2) (py - ph / 2) pw ph
      (e.x - e.width / 2) (e.y - e.height / 2) e.width e.height)

/-- Test fixture: an active enemy of the given type, currently in its
falling entrance animation (startFall was called on it by the challenge
spawner), in the given FSM state. -/
def fallingRec (t : EType) (st : String) : EnemyRec :=
  { etype := t, x := 0, y := 0, width := 32, height := 32, active := true,
    falling := true, justLanded := false, state := st, burrowGrace := 0 }

/-- Test fixture: an enemy on its landing frame (falling just ended,
justLanded still set, the orchestrator has not cleared it yet). -/
def landedRec (t : EType) (st : String) : EnemyRec :=
  { etype := t, x := 0, y := 0, width := 32, height := 32, active := true,
    falling := false, justLanded := true, state := st, burrowGrace := 0 }

-- ══════════════ Depth-scaled HeartQTE (qtes/heartQte.js) ═══════════════

structure HeartMark where
  x : ℚ
  hit : Bool
  missed : Bool
deriving DecidableEq, Repr

/-- HeartQTE state: base QTE plus the scrolling targets.  TARGET_X is
CANVAS_WIDTH - 160 = 640; hearts start at TARGET_X - 150 - i * 120. -/
structure HeartQTE where
  qte : QTE
  heartCount : ℤ
  scrollSpeed : ℚ
  hearts : List HeartMark
  nextHeart : ℕ
deriving DecidableEq, Repr

/-- HeartQTE constructor at a given time limit and level depth. -/
def HeartQTE.mk0 (timeLimit : ℚ) (levelDepth : ℤ) : HeartQTE :=
  { qte := QTE.mk0 timeLimit,
    heartCount := getHeartCount levelDepth,
    scrollSpeed := getHeartScrollSpeed levelDepth,
    hearts := List.map
      (fun i : ℕ =>
        ({ x := 640 - 150 - (i : ℚ) * 120, hit := false, missed := false } : HeartMark))
      (List.range (getHeartCount levelDepth).toNat),
    nextHeart := 0 }

/-- HeartQTE.update(dt): super.update first, bail when completed, scroll
every heart by scrollSpeed * dt, then fail if the next expected heart
passed the hit zone (x > TARGET_X + 36) unclicked. -/
def HeartQTE.updateH (h : HeartQTE) (dt : ℚ) : HeartQTE :=
  let q := h.qte.updateQ dt
  if q.completed then { h with qte := q }
  else
    let hearts := h.hearts.map (fun m => { m with x := m.x + h.scrollSpeed * dt })
    let h := { h with qte := q, hearts := hearts }
    match hearts.get? h.nextHeart with
    | some m =>
        if 640 + 36 < m.x && !m.hit then
          { h with qte := h.qte.fail,
                   hearts := hearts.set h.nextHeart { m with missed := true } }
        else h
    | none => h

-- ═══════ Gameplay orchestrator arbitration slice (GameplayScene) ════════

/-- Orchestrator state relevant to bullet damage and the QTE priority
window.  bulletDamageFrame = none models the initial -Infinity.  undoCalls
counts executions of the retroactive player.undoDamage() branch. -/
structure GS where
  frameCount : ℤ
  freezeTimer : ℚ
  bulletDamageFrame : Option ℤ
  qteActive : Bool
  undoCalls : ℕ
  player : Player
deriving DecidableEq, Repr

def GS.init : GS :=
  { frameCount := 0, freezeTimer := 0, bulletDamageFrame := none,
    qteActive := false, undoCalls := 0, player := Player.mk0 }

/-- One frame of environment input.  The geometric overlap tests of the
scene are abstracted into oracles: whether the player AABB overlaps an
enemy with canTriggerQTE, whether a bullet circle overlaps the player,
whether a lunging bat overlaps the player, and whether a just-landed enemy
overlaps the player's landing-damage radius. -/
structure FrameIn where
  dt : ℚ
  dashPressed : Bool
  landingHit : Bool
  qteOverlap : Bool
  bulletOverlap : Bool
  lungeOverlap : Bool
deriving DecidableEq, Repr

/-- hitstop.freeze(5): freezeTimer = max(freezeTimer, 5/60). -/
def GS.hitFreeze (s : GS) : GS :=
  { s with freezeTimer := max s.freezeTimer (5/60) }

/-- A damage site of the scene: player.damage(), and on success freeze(5)
and (for the bullet site only) bulletDamageFrame = frameCount. -/
def GS.damageEvent (recordBullet : Bool) (s : GS) : GS :=
  match s.player.damage with
  | (p, true) =>
      if recordBullet then
        GS.hitFreeze { s with player := p, bulletDamageFrame := some s.frameCount }
      else
        GS.hitFreeze { s with player := p }
  | (p, false) => { s with player := p }

/-- One GameplayScene.update frame, translated in source order:
frameCount++ first, then the hitstop freeze check (early return while
frozen), player update, landing-damage check, the QTE-trigger check with
the 3-frame retroactive undo (early return on trigger), then bullet-player
and lunge-player damage.  While a QTE is active the gameplay scene is not
on top of the scene stack and receives no update. -/
def GS.step (s : GS) (i : FrameIn) : GS :=
  if s.qteActive then s
  else
    let s1 : GS := { s with frameCount := s.frameCount + 1 }
    if 0 < s1.freezeTimer then { s1 with freezeTimer := s1.freezeTimer - i.dt }
    else
      let s2 : GS := { s1 with player := s1.player.updateP i.dt i.dashPressed }
      let s3 : GS :=
        if i.landingHit && !s2.player.dead && !s2.player.invulnerable then
          GS.damageEvent false s2
        else s2
      if !s3.player.dead && (!s3.player.invulnerable || s3.player.dashing) &&
         !s3.qteActive && i.qteOverlap then
        let undo : Bool :=
          match s3.bulletDamageFrame with
          | some f => decide (s3.frameCount - f ≤ 3)
          | none => false
        let s4 : GS :=
          if undo then
            { s3 with player := s3.player.undoDamage,
                      undoCalls := s3.undoCalls + 1 }
          else s3
        { s4 with qteActive := true }
      else
        let s5 : GS :=
          if i.bulletOverlap && !s3.player.dead && !s3.player.invulnerable then
            GS.damageEvent true s3
          else s3
        if i.lungeOverlap && !s5.player.dead && !s5.player.invulnerable then
          GS.damageEvent false s5
        else s5

def GS.run (s : GS) (L : List FrameIn) : GS :=
  L.foldl GS.step s

/-- Invariant tying the age of the last bullet damage to the remaining
hitstop freeze: either the damage is already older than the 3-frame
priority window, or the freeze timer still holds at least
5/60 - age * (1/30) seconds (each elapsed frame consumes at most
MAX_DT = 1/30 of it). -/
def C1Inv (s : GS) : Prop :=
  ∀ f : ℤ, s.bulletDamageFrame = some f →
    (3 < s.frameCount - f ∨
     (0 ≤ s.frameCount - f ∧
      5/60 - ((s.frameCount - f : ℤ) : ℚ) * (1/30) ≤ s.freezeTimer))

-- ════════════════════════════════ Theorems ═════════════════════════════

-- ── Shared helper lemmas ───────────────────────────────────────────────

/-- depthStep is monotone in the depth. -/
theorem depthStep_mono {d₁ d₂ : ℤ} (h : d₁ ≤ d₂) : depthStep d₁ ≤ depthStep d₂ := by
  unfold depthStep
  rw [Int.fdiv_eq_ediv _ (by norm_num), Int.fdiv_eq_ediv _ (by norm_num)]
  exact Int.ediv_le_ediv (by norm_num) (by omega)

-- ── C5 ─────────────────────────────────────────────────────────────────

/-- C5: the difficulty functions do NOT clamp `levelDepth <= 0` to the
depth-1 tuning: getLevelTimeLimit extrapolates upward (65 at 0, 70 at -5)
and getGeneratorTapTarget extrapolates downward (3 at 0, even reaching a
negative tap target, -1, at depth -14), while depth 1 gives 60 and 5. -/
theorem difficulty_extrapolates_below_depth_one :
    getLevelTimeLimit 0 = 65 ∧ getLevelTimeLimit (-5) = 70 ∧
    getGeneratorTapTarget 0 = 3 ∧ getGeneratorTapTarget (-14) = -1 ∧
    getLevelTimeLimit 1 = 60 ∧ getGeneratorTapTarget 1 = 5 := by
  decide

-- ── C9 ─────────────────────────────────────────────────────────────────

/-- C9: for all integer depths, getLevelTimeLimit is non-increasing and
bounded below by 30, and getGeneratorTapTarget is non-decreasing and
bounded above by 15. -/
theorem difficulty_monotone_bounded (d₁ d₂ : ℤ) (h : d₁ ≤ d₂) :
    getLevelTimeLimit d₂ ≤ getLevelTimeLimit d₁ ∧
    30 ≤ getLevelTimeLimit d₁ ∧
    getGeneratorTapTarget d₁ ≤ getGeneratorTapTarget d₂ ∧
    getGeneratorTapTarget d₁ ≤ 15 := by
  have hstep := depthStep_mono h
  refine ⟨?_, le_max_left _ _, ?_, min_le_right _ _⟩
  · exact max_le_max (le_refl 30) (by omega)
  · exact min_le_min (by omega) (le_refl 15)

/-- C9 witness at depths 1 ≤ 5. -/
theorem difficulty_monotone_bounded_witness :
    getLevelTimeLimit 5 ≤ getLevelTimeLimit 1 ∧
    30 ≤ getLevelTimeLimit 1 ∧
    getGeneratorTapTarget 1 ≤ getGeneratorTapTarget 5 ∧
    getGeneratorTapTarget 1 ≤ 15 :=
  difficulty_monotone_bounded 1 5 (by decide)

-- ── C10 ────────────────────────────────────────────────────────────────

/-- C10: Player.undoDamage is unconditional — it always adds a life,
clears invulnerability (including dash invulnerability) and revives; after
a refused damage() it inflates lives above the pre-hit value, and calling
it twice after one successful damage() also exceeds the pre-hit value. -/
theorem undoDamage_unconditional :
    (∀ p : Player, (p.undoDamage).lives = p.lives + 1 ∧
       (p.undoDamage).invulnerable = false ∧ (p.undoDamage).invulnTimer = 0 ∧
       (p.undoDamage).dead = false) ∧
    (∀ p : Player, (p.damage).2 = false →
       ((p.damage).1.undoDamage).lives = p.lives + 1) ∧
    (∀ p : Player, (p.damage).2 = true →
       p.lives + 1 ≤ ((p.damage).1.undoDamage.undoDamage).lives) ∧
    (∀ p : Player, p.dashing = true → (p.undoDamage).invulnerable = false) := by
  refine ⟨fun p => ⟨rfl, rfl, rfl, rfl⟩, fun p h => ?_, fun p h => ?_, fun p _ => rfl⟩
  · unfold Player.damage at h ⊢
    by_cases h1 : p.invulnerable || p.dead
    · simp [h1, Player.undoDamage]
    · exfalso
      simp only [if_neg h1] at h
      split_ifs at h
  · unfold Player.damage at h ⊢
    by_cases h1 : p.invulnerable || p.dead
    · simp [h1] at h
    · simp only [if_neg h1] at h ⊢
      split_ifs with h2
      · simp only [Player.undoDamage]
        omega
      · simp only [Player.undoDamage]
        omega

/-- C10 witness: a fresh player's damage succeeds, and a double undo after
it overshoots the pre-hit life count; a refused damage (invulnerable
player) followed by undo also inflates the count. -/
theorem undoDamage_unconditional_witness :
    (Player.mk0.damage).2 = true ∧
    Player.mk0.lives + 1 ≤ ((Player.mk0.damage).1.undoDamage.undoDamage).lives ∧
    ({ Player.mk0 with invulnerable := true }.damage).2 = false ∧
    (({ Player.mk0 with invulnerable := true }.damage).1.undoDamage).lives =
      { Player.mk0 with invulnerable := true }.lives + 1 :=
  ⟨by decide, undoDamage_unconditional.2.2.1 Player.mk0 (by decide),
   by decide, undoDamage_unconditional.2.1 _ (by decide)⟩

-- ── C4 ─────────────────────────────────────────────────────────────────

/-- C4: succeed() and fail() are one-shot — once either has completed the
QTE, any later succeed()/fail() call in either order leaves the state
(including result) unchanged; and across any frame sequence the QTE scene
fires its success/fail callback at most once. -/
theorem qte_succeed_fail_idempotent :
    (∀ q : QTE, q.succeed.succeed = q.succeed ∧ q.succeed.fail = q.succeed ∧
       q.fail.fail = q.fail ∧ q.fail.succeed = q.fail ∧
       q.succeed.completed = true ∧ q.fail.completed = true) ∧
    (∀ (q : QTE) (dts : List ℚ),
       (QTEScene.run (QTEScene.mk0 q) dts).successFires +
         (QTEScene.run (QTEScene.mk0 q) dts).failFires ≤ 1) := by
  constructor
  · intro q
    by_cases hq : q.completed <;>
      simp [QTE.succeed, QTE.fail, hq]
  · have step_pres : ∀ (s : QTEScene) (dt : ℚ),
        s.successFires + s.failFires ≤ (if s.popped then 1 else 0) →
        (s.step dt).successFires + (s.step dt).failFires ≤
          (if (s.step dt).popped then 1 else 0) := by
      intro s dt h
      by_cases h1 : s.popped = true
      · simpa [QTEScene.step, h1] using h
      · have hp : s.popped = false := by simpa using h1
        simp only [hp, Bool.false_eq_true, if_false] at h
        have hs : s.successFires = 0 ∧ s.failFires = 0 := by omega
        unfold QTEScene.step
        rw [hp]
        simp only [Bool.false_eq_true, if_false]
        by_cases h2 : s.splashDone
        · simp only [h2, Bool.not_true, Bool.false_eq_true, if_false]
          by_cases h3 : (s.qte.updateQ dt).completed = true
          · rw [if_pos h3]
            rcases hr : (s.qte.updateQ dt).result with _ | r
            · simp [hs.1, hs.2]
            · rcases r <;> simp [hs.1, hs.2]
          · rw [if_neg h3]
            simp [hs.1, hs.2, hp]
        · simp only [h2, Bool.not_false, if_true]
          split_ifs <;> simp [hs.1, hs.2, hp]
    have run_pres : ∀ (dts : List ℚ) (s : QTEScene),
        s.successFires + s.failFires ≤ (if s.popped then 1 else 0) →
        (QTEScene.run s dts).successFires + (QTEScene.run s dts).failFires ≤
          (if (QTEScene.run s dts).popped then 1 else 0) := by
      intro dts
      induction dts with
      | nil => intro s h; simpa [QTEScene.run] using h
      | cons a l ih =>
          intro s h
          have := ih (s.step a) (step_pres s a h)
          simpa [QTEScene.run] using this
    intro q dts
    have h0 : (QTEScene.mk0 q).successFires + (QTEScene.mk0 q).failFires ≤
        (if (QTEScene.mk0 q).popped then 1 else 0) := by
      simp [QTEScene.mk0]
    have := run_pres dts (QTEScene.mk0 q) h0
    split_ifs at this <;> omega

-- ── C2 ─────────────────────────────────────────────────────────────────

/-- C2: canTriggerQTE does NOT exclude falling or just-landed enemies for
most types.  A falling Bat, Gopher, Letter, Cowboy, Controller or Clock
still reports canTriggerQTE = true, and the base-class getter (used while
justLanded is set, since it checks falling but not justLanded) also
returns true on the landing frame; only SpinningTop and Heart implement
the exclusion.  Consequently the orchestrator's QTE collision check does
return a falling enemy that overlaps the player. -/
theorem canTriggerQTE_ignores_falling_and_justLanded :
    batCanTriggerQTE (fallingRec EType.bat "flutter") = true ∧
    gopherCanTriggerQTE (fallingRec EType.gopher "idle") = true ∧
    letterCanTriggerQTE (fallingRec EType.letter "aiming") = true ∧
    cowboyCanTriggerQTE (fallingRec EType.cowboy "running") = true ∧
    controllerCanTriggerQTE (fallingRec EType.controller "idle") = true ∧
    clockCanTriggerQTE (fallingRec EType.clock "idle") = true ∧
    enemyBaseCanTriggerQTE (landedRec EType.bat "flutter") = true ∧
    spinningTopCanTriggerQTE (fallingRec EType.spinningTop "idle") = false ∧
    spinningTopCanTriggerQTE (landedRec EType.spinningTop "idle") = false ∧
    heartCanTriggerQTE (fallingRec EType.heart "fleeing") = false ∧
    checkQTECollision 0 0 32 32 [fallingRec EType.bat "flutter"] =
      some (fallingRec EType.bat "flutter") := by
  refine ⟨by decide, by decide, by decide, by decide, by decide, by decide,
          by decide, by decide, by decide, by decide, ?_⟩
  norm_num [checkQTECollision, checkAABB, canTriggerQTE, batCanTriggerQTE,
    fallingRec, List.find?]
  decide

-- ── C3 ─────────────────────────────────────────────────────────────────

/-- C3 counterexample: with two walls forming a corner, one single call to
the AABB mode of resolveWallCollision moves the entity on BOTH axes (the
first wall pushes x, the second pushes y), refuting the at-most-one-axis
per-call claim. -/
theorem resolveWallCollision_two_walls_changes_both_axes :
    (resolveAABB ⟨0, 0, 32, 32⟩ [⟨10, -16, 10, 32⟩, ⟨-16, 10, 32, 10⟩]).x ≠ 0 ∧
    (resolveAABB ⟨0, 0, 32, 32⟩ [⟨10, -16, 10, 32⟩, ⟨-16, 10, 32, 10⟩]).y ≠ 0 := by
  norm_num [resolveAABB, resolveAABBWall, mathAbs]

/-- C3 amended: each individual wall correction of the AABB resolution
changes at most one axis of position, and after it the entity does not
overlap THAT wall at all (boundary contact counts as non-overlap); a call
on a one-wall list is exactly this single correction. -/
theorem resolveWallCollision_single_wall_single_axis (e : Ent) (wall : Wall) :
    ((resolveAABBWall e wall).x = e.x ∨ (resolveAABBWall e wall).y = e.y) ∧
    entOverlapsWall (resolveAABBWall e wall) wall = false ∧
    resolveAABB e [wall] = resolveAABBWall e wall := by
  refine ⟨?_, ?_, rfl⟩
  · unfold resolveAABBWall
    dsimp only
    split_ifs <;> simp
  · unfold resolveAABBWall entOverlapsWall
    dsimp only
    split_ifs with h1 h2 h3 h4 h5 h6 h7 <;>
      first
        | (simp only [Bool.not_eq_false']; exact h1)
        | (simp only [Bool.not_eq_false', Bool.or_eq_true, decide_eq_true_eq]
           first
             | (refine Or.inl (Or.inl (Or.inl ?_)); dsimp only; linarith)
             | (refine Or.inl (Or.inl (Or.inr ?_)); dsimp only; linarith)
             | (refine Or.inl (Or.inr ?_); dsimp only; linarith)
             | (refine Or.inr ?_; dsimp only; linarith))

-- ── C8 ─────────────────────────────────────────────────────────────────

/-- Setting a list index to the value it already holds is the identity. -/
theorem list_set_get_self {α : Type} (l : List α) (n : ℕ) (a : α)
    (h : l.get? n = some a) : l.set n a = l := by
  induction l generalizing n with
  | nil => simp at h
  | cons x xs ih =>
      cases n with
      | zero =>
          simp only [List.get?_cons_zero, Option.some.injEq] at h
          simp [h]
      | succ m =>
          simp only [List.get?_cons_succ] at h
          simp [ih m h]

/-- C8: a HeartQTE built at level depth d carries the depth-scaled target
count and scroll speed (getHeartCount / getHeartScrollSpeed), builds that
many scrolling targets, and each update advances every target by exactly
scrollSpeed·dt; the depth tables give 3 targets at 120 px/s at depth 1 and
5 targets at 280 px/s at depth 20 (speed clamped beyond). -/
theorem heartQTE_scales_with_depth :
    (∀ (tl : ℚ) (d : ℤ),
       (HeartQTE.mk0 tl d).heartCount = getHeartCount d ∧
       (HeartQTE.mk0 tl d).scrollSpeed = getHeartScrollSpeed d ∧
       (HeartQTE.mk0 tl d).hearts.length = (getHeartCount d).toNat) ∧
    ((HeartQTE.mk0 5 1).heartCount = 3 ∧ (HeartQTE.mk0 5 20).heartCount = 5 ∧
     (HeartQTE.mk0 5 1).scrollSpeed = 120 ∧
     (HeartQTE.mk0 5 20).scrollSpeed = 280 ∧
     (HeartQTE.mk0 5 25).scrollSpeed = 280 ∧
     (HeartQTE.mk0 5 6).scrollSpeed = 3080/19) ∧
    (∀ (tl : ℚ) (d : ℤ) (dt : ℚ), dt < tl →
       ((HeartQTE.mk0 tl d).updateH dt).hearts.map HeartMark.x =
         (HeartQTE.mk0 tl d).hearts.map
           (fun m => m.x + getHeartScrollSpeed d * dt)) := by
  refine ⟨fun tl d => ⟨rfl, rfl, ?_⟩, ?_, ?_⟩
  · simp only [HeartQTE.mk0]
    rw [List.length_map, List.length_range]
  · refine ⟨by decide, by decide, ?_, ?_, ?_, ?_⟩ <;>
      norm_num [HeartQTE.mk0, getHeartScrollSpeed, lerpDepth, max_def, min_def]
  · intro tl d dt hlt
    have hq : (QTE.mk0 tl).updateQ dt =
        { timeLimit := tl, elapsed := 0 + dt, completed := false, result := none } := by
      unfold QTE.updateQ QTE.mk0
      dsimp only
      rw [if_neg (by simp), if_neg (by simpa using not_le.mpr (by linarith))]
    show ((HeartQTE.mk0 tl d).updateH dt).hearts.map HeartMark.x = _
    unfold HeartQTE.updateH
    rw [show (HeartQTE.mk0 tl d).qte = QTE.mk0 tl from rfl, hq]
    simp only [Bool.false_eq_true, if_false]
    rcases hg : ((HeartQTE.mk0 tl d).hearts.map
        (fun m => { m with x := m.x + (HeartQTE.mk0 tl d).scrollSpeed * dt })).get?
        (HeartQTE.mk0 tl d).nextHeart with _ | m
    · simp only [hg, List.map_map]
      rfl
    · simp only [hg]
      split_ifs with hmiss
      · dsimp only
        rw [List.map_set]
        have hx : (((HeartQTE.mk0 tl d).hearts.map
            (fun m => { m with x := m.x + (HeartQTE.mk0 tl d).scrollSpeed * dt })).map
              HeartMark.x).get? (HeartQTE.mk0 tl d).nextHeart =
            some (HeartMark.x { m with missed := true }) := by
          rw [List.get?_map, hg]
          rfl
        rw [list_set_get_self _ _ _ hx, List.map_map]
        rfl
      · dsimp only
        rw [List.map_map]
        rfl

/-- C8 witness: at depth 1 with a 5 s limit, one 1 s update scrolls every
heart by the depth-1 scroll speed. -/
theorem heartQTE_scales_with_depth_witness :
    ((HeartQTE.mk0 5 1).updateH 1).hearts.map HeartMark.x =
      (HeartQTE.mk0 5 1).hearts.map (fun m => m.x + getHeartScrollSpeed 1 * 1) :=
  heartQTE_scales_with_depth.2.2 5 1 1 (by norm_num)

-- ── C6 ─────────────────────────────────────────────────────────────────

/-- A live, non-fading, non-expiring bullet survives the per-bullet phase
of BulletPool.update with an empty wall list, merely moving and aging. -/
theorem bulletPhase1_nil_of_live (dt : ℚ) (b : Bullet)
    (ha : b.active = true) (hf : b.fading = false)
    (hs : b.lifetime + dt < b.maxLifetime) :
    bulletPhase1 dt [] b =
      { b with x := b.x + b.vx * dt, y := b.y + b.vy * dt,
               lifetime := b.lifetime + dt } := by
  unfold bulletPhase1 Bullet.updateB Bullet.hitsWall
  rw [ha, hf]
  rw [if_neg (not_le.mpr hs)]
  simp only [Bool.not_true, Bool.false_eq_true, if_false, List.any_nil]

/-- C6: with 201 live, non-fading, non-expiring bullets (one strictly
oldest) and no wall in range, one BulletPool.update marks exactly the
strictly oldest bullet as fading and keeps all 201 active; moreover
startFade never deactivates a bullet, and Bullet.update deactivates one
only at lifetime expiry or when the fade-out has brought alpha to 0. -/
theorem bulletPool_softCap_fades_unique_oldest
    (pool : List Bullet) (dt : ℚ) (i : ℕ) (hi : i < pool.length)
    (hlen : pool.length = 201)
    (hact : ∀ b ∈ pool, b.active = true)
    (hfade : ∀ b ∈ pool, b.fading = false)
    (hsurv : ∀ b ∈ pool, b.lifetime + dt < b.maxLifetime)
    (hmax : ∀ j, ∀ hj : j < pool.length, j ≠ i →
       (pool.get ⟨j, hj⟩).lifetime < (pool.get ⟨i, hi⟩).lifetime) :
    (bulletPoolUpdate pool dt []).length = pool.length ∧
    (∀ j, ∀ hj : j < (bulletPoolUpdate pool dt []).length,
       ((bulletPoolUpdate pool dt []).get ⟨j, hj⟩).active = true ∧
       (((bulletPoolUpdate pool dt []).get ⟨j, hj⟩).fading = true ↔ j = i)) ∧
    (∀ b : Bullet, (b.startFade).active = b.active) ∧
    (∀ (b : Bullet) (dt2 : ℚ), b.active = true → (b.updateB dt2).active = false →
       b.maxLifetime ≤ b.lifetime + dt2 ∨
         (b.fading = true ∧ 1 - (b.fadeTimer + dt2) / (3/10) ≤ 0)) := by
  have hstartFade : ∀ b : Bullet, (b.startFade).active = b.active := by
    intro b
    unfold Bullet.startFade
    split_ifs <;> rfl
  have hupdateB : ∀ (b : Bullet) (dt2 : ℚ), b.active = true →
      (b.updateB dt2).active = false →
      b.maxLifetime ≤ b.lifetime + dt2 ∨
        (b.fading = true ∧ 1 - (b.fadeTimer + dt2) / (3/10) ≤ 0) := by
    intro b dt2 hb hdead
    unfold Bullet.updateB at hdead
    rw [hb] at hdead
    simp only [Bool.not_true, Bool.false_eq_true, if_false] at hdead
    by_cases h1 : b.maxLifetime ≤ b.lifetime + dt2
    · exact Or.inl h1
    · rw [if_neg (by exact fun hc => h1 hc)] at hdead
      by_cases h2 : b.fading = true
      · rw [h2] at hdead
        simp only [if_true] at hdead
        refine Or.inr ⟨h2, ?_⟩
        by_cases h3 : max 0 (1 - (b.fadeTimer + dt2) / (3/10)) ≤ 0
        · rcases max_le_iff.mp h3 with ⟨-, h4⟩
          exact h4
        · rw [if_neg h3] at hdead
          simp at hdead
      · rw [Bool.not_eq_true] at h2
        rw [h2] at hdead
        simp at hdead
  -- the updated-and-survived pool
  set p1 : List Bullet := pool.map (bulletPhase1 dt []) with hp1
  have hlen1 : p1.length = pool.length := List.length_map _ _
  have hget1 : ∀ j, ∀ hj : j < pool.length,
      p1.get ⟨j, by rw [hlen1]; exact hj⟩ =
        { pool.get ⟨j, hj⟩ with
          x := (pool.get ⟨j, hj⟩).x + (pool.get ⟨j, hj⟩).vx * dt,
          y := (pool.get ⟨j, hj⟩).y + (pool.get ⟨j, hj⟩).vy * dt,
          lifetime := (pool.get ⟨j, hj⟩).lifetime + dt } := by
    intro j hj
    have hm : pool.get ⟨j, hj⟩ ∈ pool := List.get_mem _ _ _
    have := bulletPhase1_nil_of_live dt (pool.get ⟨j, hj⟩)
      (hact _ hm) (hfade _ hm) (hsurv _ hm)
    simp only [hp1, List.get_eq_getElem, List.getElem_map]
    exact this
  have hget1A : ∀ j, ∀ hj : j < p1.length, (p1.get ⟨j, hj⟩).active = true := by
    intro j hj
    have hj2 : j < pool.length := by rw [← hlen1]; exact hj
    rw [hget1 j hj2]
    exact hact (pool.get ⟨j, hj2⟩) (List.get_mem _ _ _)
  have hget1F : ∀ j, ∀ hj : j < p1.length, (p1.get ⟨j, hj⟩).fading = false := by
    intro j hj
    have hj2 : j < pool.length := by rw [← hlen1]; exact hj
    rw [hget1 j hj2]
    exact hfade (pool.get ⟨j, hj2⟩) (List.get_mem _ _ _)
  have hget1L : ∀ j, ∀ hj : j < p1.length,
      (p1.get ⟨j, hj⟩).lifetime = (pool.get ⟨j, by rw [← hlen1]; exact hj⟩).lifetime + dt := by
    intro j hj
    have hj2 : j < pool.length := by rw [← hlen1]; exact hj
    rw [hget1 j hj2]
  -- every entry of the enumerated survivors list is active
  have henum : ∀ p ∈ p1.enum, ∃ hlt : p.1 < p1.length, p1.get ⟨p.1, hlt⟩ = p.2 := by
    intro p hp
    have hg := List.mem_enum_iff_get?.mp hp
    rcases List.get?_eq_some.mp hg with ⟨hlt, hgv⟩
    exact ⟨hlt, hgv⟩
  have hfilter : p1.enum.filter (fun p => p.2.active) = p1.enum := by
    apply List.filter_eq_self.mpr
    intro p hp
    rcases henum p hp with ⟨hlt, hgv⟩
    rw [← hgv]
    exact hget1A _ _
  have hlenEnum : p1.enum.length = 201 := by
    rw [List.enum_length, hlen1, hlen]
  -- the strictly oldest survivor heads the sort
  have hip1 : i < p1.length := by rw [hlen1]; exact hi
  have hmem_i : (i, p1.get ⟨i, hip1⟩) ∈ p1.enum := by
    have hilt : i < p1.enum.length := by rw [hlenEnum, ← hlen]; exact hi
    have h2 : p1.enum.get ⟨i, hilt⟩ = (i, p1.get ⟨i, hip1⟩) := by
      simp only [List.get_eq_getElem, List.getElem_enum]
    rw [← h2]
    exact List.get_mem _ _ _
  have hperm := List.perm_insertionSort oldestFirst p1.enum
  have hsorted := List.sorted_insertionSort oldestFirst p1.enum
  have hsortlen : (List.insertionSort oldestFirst p1.enum).length = 201 := by
    rw [hperm.length_eq, hlenEnum]
  have hhead : ∃ t, List.insertionSort oldestFirst p1.enum =
      (i, p1.get ⟨i, hip1⟩) :: t := by
    rcases hsd : List.insertionSort oldestFirst p1.enum with _ | ⟨h0, t⟩
    · rw [hsd] at hsortlen
      simp at hsortlen
    · refine ⟨t, ?_⟩
      have hmem_sorted : (i, p1.get ⟨i, hip1⟩) ∈ h0 :: t := by
        rw [← hsd]
        exact (hperm.mem_iff).mpr hmem_i
    -- identify the head with the unique maximum
      have hh0mem : h0 ∈ p1.enum := by
        have : h0 ∈ h0 :: t := List.mem_cons_self _ _
        rw [← hsd] at this
        exact (hperm.mem_iff).mp this
      rcases henum h0 hh0mem with ⟨hh0lt, hh0get⟩
      by_cases hcase : h0.1 = i
      · have hv : h0.2 = p1.get ⟨i, hip1⟩ := by
          rw [← hh0get]
          congr 1
          exact Fin.ext hcase
        have he : h0 = (i, p1.get ⟨i, hip1⟩) := by
          rcases h0 with ⟨a, b⟩
          dsimp only at hcase hv
          rw [hcase, hv]
        rw [he]
      · exfalso
        rcases List.mem_cons.mp hmem_sorted with heq | htail
        · exact hcase (congrArg Prod.fst heq).symm
        · rw [hsd] at hsorted
          have hrel := List.rel_of_sorted_cons hsorted _ htail
          unfold oldestFirst at hrel
          have hj2 : h0.1 < pool.length := by rw [← hlen1]; exact hh0lt
          have hstrict := hmax h0.1 hj2 hcase
          have hL1 : (p1.get ⟨h0.1, hh0lt⟩).lifetime =
              (pool.get ⟨h0.1, hj2⟩).lifetime + dt := hget1L _ _
          have hL2 : (p1.get ⟨i, hip1⟩).lifetime =
              (pool.get ⟨i, hi⟩).lifetime + dt := hget1L _ _
          rw [hh0get] at hL1
          dsimp only at hrel
          rw [hL1, hL2] at hrel
          linarith
  -- put the pieces together
  rcases hhead with ⟨t, hhead⟩
  have hout : bulletPoolUpdate pool dt [] =
      p1.enum.map (fun p => if p.1 ∈ [i] then p.2.startFade else p.2) := by
    unfold bulletPoolUpdate
    dsimp only
    rw [← hp1, hfilter]
    rw [if_pos (by rw [hlenEnum]; norm_num)]
    rw [hhead, hlenEnum]
    norm_num [List.take_succ_cons, List.take_zero, List.map_cons, List.map_nil]
  have houtlen : (bulletPoolUpdate pool dt []).length = pool.length := by
    rw [hout, List.length_map, List.enum_length, hlen1]
  refine ⟨houtlen, ?_, hstartFade, hupdateB⟩
  intro j hj
  have hjp : j < pool.length := by rw [← houtlen]; exact hj
  have hjp1 : j < p1.length := by rw [hlen1]; exact hjp
  have hjenum : j < p1.enum.length := by rw [List.enum_length]; exact hjp1
  have hgetout : (bulletPoolUpdate pool dt []).get ⟨j, hj⟩ =
      if j ∈ [i] then (p1.get ⟨j, hjp1⟩).startFade else p1.get ⟨j, hjp1⟩ := by
    rw [List.get_eq_getElem, List.getElem_of_eq hout]
    simp only [List.getElem_map, List.getElem_enum, List.get_eq_getElem]
  rw [hgetout]
  by_cases hji : j = i
  · rw [if_pos (List.mem_singleton.mpr hji)]
    constructor
    · rw [hstartFade]
      exact hget1A _ _
    · unfold Bullet.startFade
      rw [hget1F _ hjp1]
      simp [hji]
  · rw [if_neg (fun hc => hji (List.mem_singleton.mp hc))]
    constructor
    · exact hget1A _ _
    · rw [hget1F _ hjp1]
      simp [hji]

/-- C6 witness: in a concrete pool of 201 live bullets whose last entry is
strictly oldest, one update keeps the pool size, keeps the oldest bullet
active but fading, and leaves the others unfaded. -/
theorem bulletPool_softCap_fades_unique_oldest_witness :
    (bulletPoolUpdate c6Pool (1/60) []).length = c6Pool.length ∧
    ((bulletPoolUpdate c6Pool (1/60) []).getD 200 c6Base).fading = true ∧
    ((bulletPoolUpdate c6Pool (1/60) []).getD 200 c6Base).active = true ∧
    ((bulletPoolUpdate c6Pool (1/60) []).getD 0 c6Base).fading = false := by
  have hclen : c6Pool.length = 201 := by
    unfold c6Pool
    rw [List.length_append, List.length_replicate, List.length_singleton]
  have hi : (200 : ℕ) < c6Pool.length := by omega
  have H := bulletPool_softCap_fades_unique_oldest c6Pool (1/60) 200 hi
    hclen
    (by
      intro b hb
      rcases List.mem_append.mp hb with h | h
      · rw [List.eq_of_mem_replicate h]
        rfl
      · rw [List.mem_singleton.mp h]
        rfl)
    (by
      intro b hb
      rcases List.mem_append.mp hb with h | h
      · rw [List.eq_of_mem_replicate h]
        rfl
      · rw [List.mem_singleton.mp h]
        rfl)
    (by
      intro b hb
      rcases List.mem_append.mp hb with h | h
      · rw [List.eq_of_mem_replicate h]
        norm_num [c6Base]
      · rw [List.mem_singleton.mp h]
        norm_num [c6Base])
    (by
      intro j hj hne
      have hj200 : j < 200 := by omega
      have h1 : c6Pool.get ⟨j, hj⟩ = c6Base := by
        rw [List.get_eq_getElem]
        unfold c6Pool
        rw [List.getElem_append_left (by rw [List.length_replicate]; exact hj200)]
        exact List.getElem_replicate _ _
      have h2 : c6Pool.get ⟨200, hi⟩ = { c6Base with lifetime := 1 } := by
        rw [List.get_eq_getElem]
        unfold c6Pool
        rw [List.getElem_append_right (le_of_eq (List.length_replicate 200 c6Base))]
        simp only [List.length_replicate, Nat.sub_self, List.getElem_cons_zero]
      rw [h1, h2]
      norm_num [c6Base])
  have hlen201 : (bulletPoolUpdate c6Pool (1/60) []).length = 201 := by
    rw [H.1, hclen]
  have hb200 : (200 : ℕ) < (bulletPoolUpdate c6Pool (1/60) []).length := by omega
  have hb0 : (0 : ℕ) < (bulletPoolUpdate c6Pool (1/60) []).length := by omega
  have h200 := H.2.1 200 hb200
  have h0 := H.2.1 0 hb0
  rw [List.get_eq_getElem] at h200 h0
  refine ⟨H.1, ?_, ?_, ?_⟩
  · rw [List.getD_eq_getElem _ _ hb200]
    exact h200.2.mpr rfl
  · rw [List.getD_eq_getElem _ _ hb200]
    exact h200.1
  · rw [List.getD_eq_getElem _ _ hb0]
    by_cases hf : (bulletPoolUpdate c6Pool (1/60) [])[0].fading = true
    · exact absurd (h0.2.mp hf) (by norm_num)
    · simpa using hf

-- ── C7 ─────────────────────────────────────────────────────────────────

/-- External deactivation keeps the pool size. -/
theorem deactivateIds_length (bs : List Bool) (ids : List ℕ) :
    (deactivateIds bs ids).length = bs.length := by
  unfold deactivateIds
  rw [List.length_map, List.enum_length]

/-- External deactivation never activates a bullet. -/
theorem deactivateIds_true {bs : List Bool} {ids : List ℕ} {j : ℕ}
    (hj : j < bs.length)
    (h : (deactivateIds bs ids).get
      ⟨j, by rw [deactivateIds_length]; exact hj⟩ = true) :
    bs.get ⟨j, hj⟩ = true := by
  unfold deactivateIds at h
  rw [List.get_eq_getElem] at h
  simp only [List.getElem_map, List.getElem_enum] at h
  split_ifs at h
  rw [List.get_eq_getElem]
  exact h

/-- One simulation step preserves the single-flight invariant. -/
theorem LInv_step (s : LetterSim) (inp : LInput) (h : LInv s) :
    LInv (s.step inp) := by
  obtain ⟨⟨st, timer, ab, aimD⟩, bullets⟩ := s
  obtain ⟨h1, h2, h3⟩ := h
  dsimp only at h1 h2 h3
  have hdmono : ∀ (deact : List ℕ) (j : ℕ),
      ∀ hj : j < (deactivateIds bullets deact).length,
      (deactivateIds bullets deact).get ⟨j, hj⟩ = true →
      ∃ hjb : j < bullets.length, bullets.get ⟨j, hjb⟩ = true := by
    intro deact j hj hget
    have hjb : j < bullets.length := by
      rw [← deactivateIds_length bullets deact]; exact hj
    exact ⟨hjb, deactivateIds_true hjb hget⟩
  cases inp with
  | knock =>
      cases ab with
      | none =>
          have hstep : (⟨⟨st, timer, none, aimD⟩, bullets⟩ : LetterSim).step LInput.knock =
              ⟨⟨LSt.aiming, 0, none, aimD⟩, bullets⟩ := by
            simp only [LetterSim.step]
          rw [hstep]
          refine ⟨?_, fun _ => rfl, by rintro b hb; exact absurd hb (by simp)⟩
          intro j hj hget
          exact absurd (h1 j hj hget) (by simp)
      | some b =>
          have hstep : (⟨⟨st, timer, some b, aimD⟩, bullets⟩ : LetterSim).step LInput.knock =
              ⟨⟨LSt.aiming, 0, none, aimD⟩, bullets.set b false⟩ := by
            simp only [LetterSim.step]
          rw [hstep]
          refine ⟨?_, fun _ => rfl, by rintro b2 hb2; exact absurd hb2 (by simp)⟩
          intro j hj hget
          dsimp only at hj hget
          rw [List.get_eq_getElem, List.getElem_set] at hget
          split_ifs at hget with hbj
          have hbj2 : ¬b = j := hbj
          have hjb : j < bullets.length := by simpa using hj
          have h4 := h1 j hjb (by rw [List.get_eq_getElem]; exact hget)
          exact absurd (Option.some_inj.mp h4) hbj2
  | upd dt deact =>
      cases st with
      | aiming =>
          have hab : ab = none := h2 (by simp)
          subst hab
          by_cases hspawn : aimD ≤ timer + dt
          · have hstep : (⟨⟨LSt.aiming, timer, none, aimD⟩, bullets⟩ : LetterSim).step
                (LInput.upd dt deact) =
                ⟨⟨LSt.waiting, 0, some (deactivateIds bullets deact).length, aimD⟩,
                  deactivateIds bullets deact ++ [true]⟩ := by
              simp only [LetterSim.step]
              rw [if_pos hspawn]
            rw [hstep]
            refine ⟨?_, by simp, ?_⟩
            · intro j hj hget
              dsimp only at hj hget ⊢
              by_cases hjlt : j < (deactivateIds bullets deact).length
              · exfalso
                rw [List.get_eq_getElem, List.getElem_append_left hjlt] at hget
                rcases hdmono deact j hjlt (by rw [List.get_eq_getElem]; exact hget) with
                  ⟨hjb, htrue⟩
                exact absurd (h1 j hjb htrue) (by simp)
              · have hlen : j = (deactivateIds bullets deact).length := by
                  simp only [List.length_append, List.length_singleton] at hj
                  omega
                rw [hlen]
            · rintro b hb
              dsimp only at hb
              have hb2 : (deactivateIds bullets deact).length = b := Option.some_inj.mp hb
              simp only [List.length_append, List.length_singleton]
              omega
          · have hstep : (⟨⟨LSt.aiming, timer, none, aimD⟩, bullets⟩ : LetterSim).step
                (LInput.upd dt deact) =
                ⟨⟨LSt.aiming, timer + dt, none, aimD⟩, deactivateIds bullets deact⟩ := by
              simp only [LetterSim.step]
              rw [if_neg hspawn]
            rw [hstep]
            refine ⟨?_, fun _ => rfl, by rintro b hb; exact absurd hb (by simp)⟩
            intro j hj hget
            rcases hdmono deact j hj hget with ⟨hjb, htrue⟩
            exact absurd (h1 j hjb htrue) (by simp)
      | firing =>
          have hab : ab = none := h2 (by simp)
          subst hab
          have hstep : (⟨⟨LSt.firing, timer, none, aimD⟩, bullets⟩ : LetterSim).step
              (LInput.upd dt deact) =
              ⟨⟨LSt.firing, timer + dt, none, aimD⟩, deactivateIds bullets deact⟩ := by
            simp only [LetterSim.step]
          rw [hstep]
          refine ⟨?_, fun _ => rfl, by rintro b hb; exact absurd hb (by simp)⟩
          intro j hj hget
          rcases hdmono deact j hj hget with ⟨hjb, htrue⟩
          exact absurd (h1 j hjb htrue) (by simp)
      | teleporting =>
          have hab : ab = none := h2 (by simp)
          subst hab
          by_cases htp : 3/10 ≤ timer + dt
          · have hstep : (⟨⟨LSt.teleporting, timer, none, aimD⟩, bullets⟩ : LetterSim).step
                (LInput.upd dt deact) =
                ⟨⟨LSt.aiming, 0, none, aimD⟩, deactivateIds bullets deact⟩ := by
              simp only [LetterSim.step]
              rw [if_pos htp]
            rw [hstep]
            refine ⟨?_, fun _ => rfl, by rintro b hb; exact absurd hb (by simp)⟩
            intro j hj hget
            rcases hdmono deact j hj hget with ⟨hjb, htrue⟩
            exact absurd (h1 j hjb htrue) (by simp)
          · have hstep : (⟨⟨LSt.teleporting, timer, none, aimD⟩, bullets⟩ : LetterSim).step
                (LInput.upd dt deact) =
                ⟨⟨LSt.teleporting, timer + dt, none, aimD⟩, deactivateIds bullets deact⟩ := by
              simp only [LetterSim.step]
              rw [if_neg htp]
            rw [hstep]
            refine ⟨?_, fun _ => rfl, by rintro b hb; exact absurd hb (by simp)⟩
            intro j hj hget
            rcases hdmono deact j hj hget with ⟨hjb, htrue⟩
            exact absurd (h1 j hjb htrue) (by simp)
      | waiting =>
          cases hab : ab with
          | none =>
              have hstep : (⟨⟨LSt.waiting, timer, none, aimD⟩, bullets⟩ : LetterSim).step
                  (LInput.upd dt deact) =
                  ⟨⟨LSt.waiting, timer + dt, none, aimD⟩, deactivateIds bullets deact⟩ := by
                simp only [LetterSim.step]
              rw [hstep]
              refine ⟨?_, fun _ => rfl, by rintro b hb; exact absurd hb (by simp)⟩
              intro j hj hget
              rcases hdmono deact j hj hget with ⟨hjb, htrue⟩
              have h4 := h1 j hjb htrue
              rw [hab] at h4
              simp at h4
          | some b =>
              by_cases hdead : (deactivateIds bullets deact).getD b true = false
              · have hstep : (⟨⟨LSt.waiting, timer, some b, aimD⟩, bullets⟩ : LetterSim).step
                    (LInput.upd dt deact) =
                    ⟨⟨LSt.teleporting, 0, none, aimD⟩, deactivateIds bullets deact⟩ := by
                  simp only [LetterSim.step]
                  rw [if_pos hdead]
                rw [hstep]
                refine ⟨?_, fun _ => rfl, by rintro b2 hb2; exact absurd hb2 (by simp)⟩
                intro j hj hget
                exfalso
                rcases hdmono deact j hj hget with ⟨hjb, htrue⟩
                have h4 := h1 j hjb htrue
                rw [hab] at h4
                have hjb2 : j = b := Option.some_inj.mp h4.symm
                subst hjb2
                rw [List.getD_eq_getElem _ _ hj] at hdead
                rw [List.get_eq_getElem] at hget
                rw [hget] at hdead
                exact absurd hdead (by simp)
              · have hstep : (⟨⟨LSt.waiting, timer, some b, aimD⟩, bullets⟩ : LetterSim).step
                    (LInput.upd dt deact) =
                    ⟨⟨LSt.waiting, timer + dt, some b, aimD⟩, deactivateIds bullets deact⟩ := by
                  simp only [LetterSim.step]
                  rw [if_neg hdead]
                rw [hstep]
                refine ⟨?_, by simp, ?_⟩
                · intro j hj hget
                  rcases hdmono deact j hj hget with ⟨hjb, htrue⟩
                  have h4 := h1 j hjb htrue
                  rw [hab] at h4
                  exact h4
                · rintro b2 hb2
                  dsimp only at hb2
                  rw [deactivateIds_length]
                  exact h3 b2 (by rw [hab, ← hb2])

/-- Every state reachable from a fresh Letter satisfies the invariant. -/
theorem LInv_run (aimDur : ℚ) (L : List LInput) :
    LInv (LetterSim.run (LetterSim.init aimDur) L) := by
  have h0 : LInv (LetterSim.init aimDur) := by
    refine ⟨?_, fun _ => rfl, ?_⟩
    · intro j hj
      simp [LetterSim.init] at hj
    · rintro b hb
      exact absurd hb (by simp [LetterSim.init])
  have hfold : ∀ (M : List LInput) (s : LetterSim), LInv s →
      LInv (LetterSim.run s M) := by
    intro M
    induction M with
    | nil => intro s h; simpa [LetterSim.run] using h
    | cons a l ih =>
        intro s h
        have := ih (s.step a) (LInv_step s a h)
        simpa [LetterSim.run] using this
  exact hfold L _ h0

/-- If a step grows the pool (a spawn), the Letter was aiming with an
empty (all-inactive) pool, and lands in waiting tracking the new bullet. -/
theorem letter_step_spawn_props (s : LetterSim) (hinv : LInv s)
    (dt : ℚ) (deact : List ℕ)
    (hgrow : s.bullets.length < (s.step (LInput.upd dt deact)).bullets.length) :
    s.letter.st = LSt.aiming ∧
    (∀ j, ∀ hj : j < s.bullets.length, s.bullets.get ⟨j, hj⟩ = false) ∧
    (s.step (LInput.upd dt deact)).bullets.length = s.bullets.length + 1 ∧
    (s.step (LInput.upd dt deact)).letter.st = LSt.waiting ∧
    (s.step (LInput.upd dt deact)).letter.activeBullet = some s.bullets.length := by
  obtain ⟨⟨st, timer, ab, aimD⟩, bullets⟩ := s
  obtain ⟨h1, h2, h3⟩ := hinv
  dsimp only at h1 h2 h3 hgrow ⊢
  cases st with
  | aiming =>
      have hab : ab = none := h2 (by simp)
      subst hab
      by_cases hspawn : aimD ≤ timer + dt
      · have hstep : (⟨⟨LSt.aiming, timer, none, aimD⟩, bullets⟩ : LetterSim).step
            (LInput.upd dt deact) =
            ⟨⟨LSt.waiting, 0, some (deactivateIds bullets deact).length, aimD⟩,
              deactivateIds bullets deact ++ [true]⟩ := by
          simp only [LetterSim.step]
          rw [if_pos hspawn]
        rw [hstep]
        refine ⟨rfl, ?_, ?_, rfl, ?_⟩
        · intro j hj
          cases hb : bullets.get ⟨j, hj⟩ with
          | false => rfl
          | true => exact absurd (h1 j hj hb) (by simp)
        · dsimp only
          rw [List.length_append, List.length_singleton, deactivateIds_length]
        · dsimp only
          rw [deactivateIds_length]
      · exfalso
        have hstep : (⟨⟨LSt.aiming, timer, none, aimD⟩, bullets⟩ : LetterSim).step
            (LInput.upd dt deact) =
            ⟨⟨LSt.aiming, timer + dt, none, aimD⟩, deactivateIds bullets deact⟩ := by
          simp only [LetterSim.step]
          rw [if_neg hspawn]
        rw [hstep] at hgrow
        dsimp only at hgrow
        rw [deactivateIds_length] at hgrow
        omega
  | firing =>
      exfalso
      have hstep : (⟨⟨LSt.firing, timer, ab, aimD⟩, bullets⟩ : LetterSim).step
          (LInput.upd dt deact) =
          ⟨⟨LSt.firing, timer + dt, ab, aimD⟩, deactivateIds bullets deact⟩ := by
        simp only [LetterSim.step]
      rw [hstep] at hgrow
      dsimp only at hgrow
      rw [deactivateIds_length] at hgrow
      omega
  | teleporting =>
      exfalso
      by_cases htp : 3/10 ≤ timer + dt
      · have hstep : (⟨⟨LSt.teleporting, timer, ab, aimD⟩, bullets⟩ : LetterSim).step
            (LInput.upd dt deact) =
            ⟨⟨LSt.aiming, 0, ab, aimD⟩, deactivateIds bullets deact⟩ := by
          simp only [LetterSim.step]
          rw [if_pos htp]
        rw [hstep] at hgrow
        dsimp only at hgrow
        rw [deactivateIds_length] at hgrow
        omega
      · have hstep : (⟨⟨LSt.teleporting, timer, ab, aimD⟩, bullets⟩ : LetterSim).step
            (LInput.upd dt deact) =
            ⟨⟨LSt.teleporting, timer + dt, ab, aimD⟩, deactivateIds bullets deact⟩ := by
          simp only [LetterSim.step]
          rw [if_neg htp]
        rw [hstep] at hgrow
        dsimp only at hgrow
        rw [deactivateIds_length] at hgrow
        omega
  | waiting =>
      exfalso
      cases ab with
      | none =>
          have hstep : (⟨⟨LSt.waiting, timer, none, aimD⟩, bullets⟩ : LetterSim).step
              (LInput.upd dt deact) =
              ⟨⟨LSt.waiting, timer + dt, none, aimD⟩, deactivateIds bullets deact⟩ := by
            simp only [LetterSim.step]
          rw [hstep] at hgrow
          dsimp only at hgrow
          rw [deactivateIds_length] at hgrow
          omega
      | some b =>
          by_cases hdead : (deactivateIds bullets deact).getD b true = false
          · have hstep : (⟨⟨LSt.waiting, timer, some b, aimD⟩, bullets⟩ : LetterSim).step
                (LInput.upd dt deact) =
                ⟨⟨LSt.teleporting, 0, none, aimD⟩, deactivateIds bullets deact⟩ := by
              simp only [LetterSim.step]
              rw [if_pos hdead]
            rw [hstep] at hgrow
            dsimp only at hgrow
            rw [deactivateIds_length] at hgrow
            omega
          · have hstep : (⟨⟨LSt.waiting, timer, some b, aimD⟩, bullets⟩ : LetterSim).step
                (LInput.upd dt deact) =
                ⟨⟨LSt.waiting, timer + dt, some b, aimD⟩, deactivateIds bullets deact⟩ := by
              simp only [LetterSim.step]
              rw [if_neg hdead]
            rw [hstep] at hgrow
            dsimp only at hgrow
            rw [deactivateIds_length] at hgrow
            omega

/-- Leaving the waiting state by a plain update requires the tracked
bullet to be inactive after this frame's external deactivations. -/
theorem letter_waiting_leave (s : LetterSim) (dt : ℚ) (deact : List ℕ) (b : ℕ)
    (hst : s.letter.st = LSt.waiting)
    (hab : s.letter.activeBullet = some b)
    (hleave : (s.step (LInput.upd dt deact)).letter.st ≠ LSt.waiting) :
    (deactivateIds s.bullets deact).getD b true = false := by
  obtain ⟨⟨st, timer, ab, aimD⟩, bullets⟩ := s
  dsimp only at hst hab hleave ⊢
  subst hst
  subst hab
  by_cases hdead : (deactivateIds bullets deact).getD b true = false
  · exact hdead
  · exfalso
    have hstep : (⟨⟨LSt.waiting, timer, some b, aimD⟩, bullets⟩ : LetterSim).step
        (LInput.upd dt deact) =
        ⟨⟨LSt.waiting, timer + dt, some b, aimD⟩, deactivateIds bullets deact⟩ := by
      simp only [LetterSim.step]
      rw [if_neg hdead]
    rw [hstep] at hleave
    exact hleave rfl

-- ── C7 claim ───────────────────────────────────────────────────────────

/-- C7: along every input trace of the Letter simulation, (1) any active
pool bullet is exactly the Letter's tracked in-flight bullet (so there is
at most one, and a spawn can only happen when every previously spawned
bullet is inactive), (2) a pool-growing step (a spawn) happens only from
the aiming state, spawns exactly one bullet, and lands in waiting tracking
it, and (3) the Letter leaves waiting under a plain update only once the
tracked bullet is inactive. -/
theorem letter_single_flight (aimDur : ℚ) (L : List LInput) :
    (∀ j, ∀ hj : j < (LetterSim.run (LetterSim.init aimDur) L).bullets.length,
       (LetterSim.run (LetterSim.init aimDur) L).bullets.get ⟨j, hj⟩ = true →
       (LetterSim.run (LetterSim.init aimDur) L).letter.activeBullet = some j) ∧
    (∀ (dt : ℚ) (deact : List ℕ),
       (LetterSim.run (LetterSim.init aimDur) L).bullets.length <
         ((LetterSim.run (LetterSim.init aimDur) L).step
           (LInput.upd dt deact)).bullets.length →
       (LetterSim.run (LetterSim.init aimDur) L).letter.st = LSt.aiming ∧
       (∀ j, ∀ hj : j < (LetterSim.run (LetterSim.init aimDur) L).bullets.length,
          (LetterSim.run (LetterSim.init aimDur) L).bullets.get ⟨j, hj⟩ = false) ∧
       ((LetterSim.run (LetterSim.init aimDur) L).step
           (LInput.upd dt deact)).bullets.length =
         (LetterSim.run (LetterSim.init aimDur) L).bullets.length + 1 ∧
       ((LetterSim.run (LetterSim.init aimDur) L).step
           (LInput.upd dt deact)).letter.st = LSt.waiting ∧
       ((LetterSim.run (LetterSim.init aimDur) L).step
           (LInput.upd dt deact)).letter.activeBullet =
         some (LetterSim.run (LetterSim.init aimDur) L).bullets.length) ∧
    (∀ (dt : ℚ) (deact : List ℕ) (b : ℕ),
       (LetterSim.run (LetterSim.init aimDur) L).letter.st = LSt.waiting →
       (LetterSim.run (LetterSim.init aimDur) L).letter.activeBullet = some b →
       ((LetterSim.run (LetterSim.init aimDur) L).step
           (LInput.upd dt deact)).letter.st ≠ LSt.waiting →
       (deactivateIds (LetterSim.run (LetterSim.init aimDur) L).bullets deact).getD
         b true = false) := by
  refine ⟨(LInv_run aimDur L).1, ?_, ?_⟩
  · intro dt deact hgrow
    exact letter_step_spawn_props _ (LInv_run aimDur L) dt deact hgrow
  · intro dt deact b hst hab hleave
    exact letter_waiting_leave _ dt deact b hst hab hleave

/-- C7 witness: with a 1 s aim duration, one 1 s frame makes the Letter
fire; its single pool bullet (id 0) is the tracked in-flight bullet. -/
theorem letter_single_flight_witness :
    (LetterSim.run (LetterSim.init 1) [LInput.upd 1 []]).letter.activeBullet =
      some 0 := by
  have hb : (LetterSim.run (LetterSim.init 1) [LInput.upd 1 []]).bullets = [true] := by
    norm_num [LetterSim.run, LetterSim.step, LetterSim.init, deactivateIds]
  have hlen : 0 < (LetterSim.run (LetterSim.init 1) [LInput.upd 1 []]).bullets.length := by
    rw [hb]
    norm_num
  refine (letter_single_flight 1 [LInput.upd 1 []]).1 0 hlen ?_
  rw [List.get_eq_getElem, List.getElem_of_eq hb]
  rfl

-- ── C1 helper lemmas ───────────────────────────────────────────────────

/-- A damage site never changes the frame counter. -/
theorem damageEvent_fc (b : Bool) (s : GS) :
    (GS.damageEvent b s).frameCount = s.frameCount := by
  unfold GS.damageEvent
  rcases hd : s.player.damage with ⟨p, br⟩
  cases br <;> cases b <;> simp [GS.hitFreeze]

/-- A damage site never touches the undo counter. -/
theorem damageEvent_un (b : Bool) (s : GS) :
    (GS.damageEvent b s).undoCalls = s.undoCalls := by
  unfold GS.damageEvent
  rcases hd : s.player.damage with ⟨p, br⟩
  cases br <;> cases b <;> simp [GS.hitFreeze]

/-- A damage site never lowers the freeze timer. -/
theorem damageEvent_fz (b : Bool) (s : GS) :
    s.freezeTimer ≤ (GS.damageEvent b s).freezeTimer := by
  unfold GS.damageEvent
  rcases hd : s.player.damage with ⟨p, br⟩
  cases br <;> cases b <;> simp [GS.hitFreeze, le_max_left]

/-- A non-bullet damage site keeps bulletDamageFrame. -/
theorem damageEvent_bdf_false (s : GS) :
    (GS.damageEvent false s).bulletDamageFrame = s.bulletDamageFrame := by
  unfold GS.damageEvent
  rcases hd : s.player.damage with ⟨p, br⟩
  cases br <;> simp [GS.hitFreeze]

/-- The bullet damage site either refuses damage (keeping
bulletDamageFrame) or stamps the current frame and sets a full 5-frame
freeze. -/
theorem damageEvent_bdf_true (s : GS) :
    (GS.damageEvent true s).bulletDamageFrame = s.bulletDamageFrame ∨
    ((GS.damageEvent true s).bulletDamageFrame = some s.frameCount ∧
     5/60 ≤ (GS.damageEvent true s).freezeTimer) := by
  unfold GS.damageEvent
  rcases hd : s.player.damage with ⟨p, br⟩
  cases br
  · left; simp
  · right
    constructor
    · simp [GS.hitFreeze]
    · simp [GS.hitFreeze]

/-- Advancing the frame counter by one while spending at most 1/30 s of
freeze preserves the C1 invariant. -/
theorem C1Inv_mono (s t : GS) (hfc : t.frameCount = s.frameCount + 1)
    (hbdf : t.bulletDamageFrame = s.bulletDamageFrame)
    (hfz : s.freezeTimer - 1/30 ≤ t.freezeTimer)
    (h : C1Inv s) : C1Inv t := by
  intro f hf
  rw [hbdf] at hf
  rcases h f hf with h1 | ⟨h2a, h2b⟩
  · left; rw [hfc]; omega
  · right
    refine ⟨by rw [hfc]; omega, ?_⟩
    rw [hfc]
    push_cast
    push_cast at h2b
    linarith

/-- A damage site preserves the C1 invariant. -/
theorem C1Inv_damageEvent (b : Bool) (s : GS) (h : C1Inv s) :
    C1Inv (GS.damageEvent b s) := by
  cases b
  · intro f hf
    rw [damageEvent_bdf_false] at hf
    rcases h f hf with h1 | ⟨h2a, h2b⟩
    · left; rw [damageEvent_fc]; exact h1
    · right
      rw [damageEvent_fc]
      exact ⟨h2a, le_trans h2b (damageEvent_fz false s)⟩
  · intro f hf
    rcases damageEvent_bdf_true s with he | ⟨he, h56⟩
    · rw [he] at hf
      rcases h f hf with h1 | ⟨h2a, h2b⟩
      · left; rw [damageEvent_fc]; exact h1
      · right
        rw [damageEvent_fc]
        exact ⟨h2a, le_trans h2b (damageEvent_fz true s)⟩
    · rw [he] at hf
      have hfeq : f = s.frameCount := (Option.some_inj.mp hf).symm
      right
      rw [damageEvent_fc, hfeq, sub_self]
      refine ⟨le_refl 0, ?_⟩
      push_cast
      linarith

/-- A conditionally executed damage site preserves the C1 invariant and
the undo counter. -/
theorem C1Inv_opt_damage (b : Bool) (c : Prop) [Decidable c] (s : GS)
    (h : C1Inv s) :
    C1Inv (if c then GS.damageEvent b s else s) ∧
    (if c then GS.damageEvent b s else s).undoCalls = s.undoCalls := by
  split_ifs
  · exact ⟨C1Inv_damageEvent b s h, damageEvent_un b s⟩
  · exact ⟨h, rfl⟩

/-- On a non-frozen frame, the QTE-check / bullet / lunge tail of
GameplayScene.update preserves the C1 invariant and never takes the
retroactive-undo branch. -/
theorem C1Inv_tail (s s3 : GS) (i : FrameIn)
    (hfz0 : s.freezeTimer ≤ 0)
    (hfc : s3.frameCount = s.frameCount + 1)
    (hbdf : s3.bulletDamageFrame = s.bulletDamageFrame)
    (hun : s3.undoCalls = s.undoCalls)
    (hInv : C1Inv s3)
    (hs : C1Inv s) :
    C1Inv
      (if (!s3.player.dead && (!s3.player.invulnerable || s3.player.dashing) &&
           !s3.qteActive && i.qteOverlap) = true then
        { (if (match s3.bulletDamageFrame with
               | some f => decide (s3.frameCount - f ≤ 3)
               | none => false) = true then
             { s3 with player := s3.player.undoDamage,
                       undoCalls := s3.undoCalls + 1 }
           else s3) with qteActive := true }
      else
        if (i.lungeOverlap &&
            !(if (i.bulletOverlap && !s3.player.dead && !s3.player.invulnerable) = true then
                GS.damageEvent true s3
              else s3).player.dead &&
            !(if (i.bulletOverlap && !s3.player.dead && !s3.player.invulnerable) = true then
                GS.damageEvent true s3
              else s3).player.invulnerable) = true then
          GS.damageEvent false
            (if (i.bulletOverlap && !s3.player.dead && !s3.player.invulnerable) = true then
              GS.damageEvent true s3
            else s3)
        else
          (if (i.bulletOverlap && !s3.player.dead && !s3.player.invulnerable) = true then
            GS.damageEvent true s3
          else s3)) ∧
    (if (!s3.player.dead && (!s3.player.invulnerable || s3.player.dashing) &&
         !s3.qteActive && i.qteOverlap) = true then
      { (if (match s3.bulletDamageFrame with
             | some f => decide (s3.frameCount - f ≤ 3)
             | none => false) = true then
           { s3 with player := s3.player.undoDamage,
                     undoCalls := s3.undoCalls + 1 }
         else s3) with qteActive := true }
    else
      if (i.lungeOverlap &&
          !(if (i.bulletOverlap && !s3.player.dead && !s3.player.invulnerable) = true then
              GS.damageEvent true s3
            else s3).player.dead &&
          !(if (i.bulletOverlap && !s3.player.dead && !s3.player.invulnerable) = true then
              GS.damageEvent true s3
            else s3).player.invulnerable) = true then
        GS.damageEvent false
          (if (i.bulletOverlap && !s3.player.dead && !s3.player.invulnerable) = true then
            GS.damageEvent true s3
          else s3)
      else
        (if (i.bulletOverlap && !s3.player.dead && !s3.player.invulnerable) = true then
          GS.damageEvent true s3
        else s3)).undoCalls = s.undoCalls := by
  by_cases hg : (!s3.player.dead && (!s3.player.invulnerable || s3.player.dashing) &&
      !s3.qteActive && i.qteOverlap) = true
  · rw [if_pos hg]
    dsimp only
    by_cases hu : (match s3.bulletDamageFrame with
        | some f => decide (s3.frameCount - f ≤ 3)
        | none => false) = true
    · exfalso
      rcases hbd : s3.bulletDamageFrame with _ | f
      · rw [hbd] at hu
        simp at hu
      · rw [hbd] at hu
        simp only [decide_eq_true_eq] at hu
        rw [hfc] at hu
        rw [hbdf] at hbd
        rcases hs f hbd with h1 | ⟨h2a, h2b⟩
        · omega
        · have hq5 : (5 : ℚ) ≤ 2 * ((s.frameCount - f : ℤ) : ℚ) := by linarith
          have hz5 : (5 : ℤ) ≤ 2 * (s.frameCount - f) := by exact_mod_cast hq5
          omega
    · rw [if_neg hu]
      refine ⟨?_, ?_⟩
      · intro f hf
        exact hInv f hf
      · exact hun
  · rw [if_neg hg]
    have h5 := C1Inv_opt_damage true
      ((i.bulletOverlap && !s3.player.dead && !s3.player.invulnerable) = true) s3 hInv
    have hres := C1Inv_opt_damage false
      ((i.lungeOverlap &&
        !(if (i.bulletOverlap && !s3.player.dead && !s3.player.invulnerable) = true then
            GS.damageEvent true s3
          else s3).player.dead &&
        !(if (i.bulletOverlap && !s3.player.dead && !s3.player.invulnerable) = true then
            GS.damageEvent true s3
          else s3).player.invulnerable) = true)
      (if (i.bulletOverlap && !s3.player.dead && !s3.player.invulnerable) = true then
        GS.damageEvent true s3
      else s3)
      h5.1
    exact ⟨hres.1, hres.2.trans (h5.2.trans hun)⟩

/-- One GameplayScene frame preserves the C1 invariant and never calls
player.undoDamage, provided the frame dt respects the MAX_DT = 1/30 cap. -/
theorem C1Inv_step (s : GS) (i : FrameIn) (_hdt0 : 0 ≤ i.dt) (hdt : i.dt ≤ 1/30)
    (h : C1Inv s) : C1Inv (s.step i) ∧ (s.step i).undoCalls = s.undoCalls := by
  by_cases hq : s.qteActive = true
  · have hstep : s.step i = s := by
      unfold GS.step
      rw [if_pos hq]
    rw [hstep]
    exact ⟨h, rfl⟩
  · by_cases hf : 0 < s.freezeTimer
    · have hstep : s.step i =
          { s with frameCount := s.frameCount + 1,
                   freezeTimer := s.freezeTimer - i.dt } := by
        unfold GS.step
        rw [if_neg hq]
        dsimp only
        rw [if_pos hf]
      rw [hstep]
      refine ⟨?_, rfl⟩
      refine C1Inv_mono s _ rfl rfl ?_ h
      show s.freezeTimer - 1/30 ≤ s.freezeTimer - i.dt
      linarith
    · unfold GS.step
      rw [if_neg hq]
      dsimp only
      rw [if_neg hf]
      set P := s.player.updateP i.dt i.dashPressed with hP
      set s2v : GS :=
        ⟨s.frameCount + 1, s.freezeTimer, s.bulletDamageFrame, s.qteActive,
         s.undoCalls, P⟩ with hs2
      set s3v : GS :=
        (if (i.landingHit && !P.dead && !P.invulnerable) = true then
          GS.damageEvent false s2v
        else s2v) with hs3
      have hfz0 : s.freezeTimer ≤ 0 := not_lt.mp hf
      have hInv2 : C1Inv s2v :=
        C1Inv_mono s s2v rfl rfl
          (by show s.freezeTimer - 1/30 ≤ s.freezeTimer; linarith) h
      have hInv3 : C1Inv s3v := by
        rw [hs3]
        split_ifs
        · exact C1Inv_damageEvent false s2v hInv2
        · exact hInv2
      have h3fc : s3v.frameCount = s.frameCount + 1 := by
        rw [hs3]
        split_ifs
        · rw [damageEvent_fc]
        · rfl
      have h3bdf : s3v.bulletDamageFrame = s.bulletDamageFrame := by
        rw [hs3]
        split_ifs
        · rw [damageEvent_bdf_false]
        · rfl
      have h3un : s3v.undoCalls = s.undoCalls := by
        rw [hs3]
        split_ifs
        · rw [damageEvent_un]
        · rfl
      exact C1Inv_tail s s3v i hfz0 h3fc h3bdf h3un hInv3 h

-- ── C1 claim ───────────────────────────────────────────────────────────

/-- C1: the spec's retroactive bullet-damage undo is dead code.  Every
successful bullet hit starts a 5-frame hitstop (freeze ≥ 5/60 s) while
frameCount keeps incrementing, and a frame consumes at most
MAX_DT = 1/30 s of freeze, so by the first non-frozen frame at which the
QTE check can run, frameCount - bulletDamageFrame ≥ 4 > QTE_PRIORITY_FRAMES
= 3: under the engine's dt cap, no run of the scene from its initial state
ever executes the player.undoDamage() branch. -/
theorem qte_priority_undo_never_fires (L : List FrameIn)
    (hdt : ∀ i ∈ L, 0 ≤ i.dt ∧ i.dt ≤ 1/30) :
    (GS.run GS.init L).undoCalls = 0 := by
  have key : ∀ (M : List FrameIn) (s : GS),
      (∀ i ∈ M, 0 ≤ i.dt ∧ i.dt ≤ 1/30) → C1Inv s →
      C1Inv (GS.run s M) ∧ (GS.run s M).undoCalls = s.undoCalls := by
    intro M
    induction M with
    | nil =>
        intro s _ hs
        exact ⟨by simpa [GS.run] using hs, by simp [GS.run]⟩
    | cons a l ih =>
        intro s hm hs
        have ha := hm a (List.mem_cons_self a l)
        have hstep := C1Inv_step s a ha.1 ha.2 hs
        have hl : ∀ i ∈ l, 0 ≤ i.dt ∧ i.dt ≤ 1/30 :=
          fun i hi => hm i (List.mem_cons_of_mem a hi)
        have hrest := ih (s.step a) hl hstep.1
        refine ⟨by simpa [GS.run] using hrest.1, ?_⟩
        have h2 : (GS.run (s.step a) l).undoCalls = s.undoCalls :=
          hrest.2.trans hstep.2
        simpa [GS.run] using h2
  have hinit : C1Inv GS.init := by
    intro f hf
    exact absurd hf (by simp [GS.init])
  exact (key L GS.init hdt hinit).2

/-- C1 witness: a 60 fps trace in which a bullet hits the player at frame
1 and a QTE-capable enemy overlaps the player from frame 2 on (the player
dashes at frame 7, the first non-frozen frame, to pass the invulnerability
gate): the retroactive undo still never fires. -/
theorem qte_priority_undo_never_fires_witness :
    (GS.run GS.init
      [⟨1/60, false, false, false, true, false⟩,
       ⟨1/60, false, false, true, false, false⟩,
       ⟨1/60, false, false, true, false, false⟩,
       ⟨1/60, false, false, true, false, false⟩,
       ⟨1/60, false, false, true, false, false⟩,
       ⟨1/60, false, false, true, false, false⟩,
       ⟨1/60, true, false, true, false, false⟩]).undoCalls = 0 :=
  qte_priority_undo_never_fires _
    (by
      intro i hi
      fin_cases hi <;> constructor <;> norm_num)
